import Mathlib

/-!
Verification development for the octatool sample-chain builder
(`src/octatool.py`).  The core under study is `generate_ot_file`, which
serializes slice metadata into a fixed 832-byte (0x340) buffer, and
`run_chain_mode`, which plans the chain (truncation, uniform-length padding,
silent-slice padding) and calls the encoder.

Modelling conventions:
* The 832-byte `bytearray` is modelled as a function `Buf := ℕ → ℕ` from byte
  index to byte value, initially constantly 0; `struct.pack_into` writes become
  pointwise updates of the little-endian byte decomposition.  Every write the
  source performs stores values already in range (Python would raise
  otherwise), so writes store the raw byte.
* Python floats are idealized as exact rationals; `int(x)` on a float is
  truncation toward zero (`itrunc`), which on the non-negative quantities in
  the source is the floor.
* An audio clip (`pydub.AudioSegment`) is modelled at millisecond resolution
  as a list of integer amplitudes, `Clip := List ℤ`: `len(clip)` is the list
  length (duration in ms), slicing is `take`, concatenation is append, and
  `AudioSegment.silent(d)` is `List.replicate d 0`.
-/

namespace Octatool

abbrev Buf := ℕ → ℕ

abbrev Clip := List ℤ

/-- Store one byte: `buffer[i] = v`. -/
def setB (b : Buf) (i v : ℕ) : Buf := fun j => if j = i then v else b j

/-- Model of `struct.pack_into('<I', buffer, off, v)`: write the four
little-endian bytes of `v` (the source only packs values below `2^32`;
out-of-range values would raise in Python). -/
def pack32 (b : Buf) (off v : ℕ) : Buf :=
  setB (setB (setB (setB b off (v % 256)) (off + 1) (v / 256 % 256))
    (off + 2) (v / 65536 % 256)) (off + 3) (v / 16777216 % 256)

/-- Model of `struct.pack_into('<H', buffer, off, v)`. -/
def pack16 (b : Buf) (off v : ℕ) : Buf :=
  setB (setB b off (v % 256)) (off + 1) (v / 256 % 256)

/-- Model of `struct.pack_into('<i', buffer, off, -1)`: the only signed value
the source ever packs is `-1`, whose two's-complement bytes are `FF FF FF FF`. -/
def packNeg (b : Buf) (off : ℕ) : Buf :=
  setB (setB (setB (setB b off 255) (off + 1) 255) (off + 2) 255) (off + 3) 255

/-- Write a list of bytes at consecutive offsets (the `for i, byte in
enumerate(form_header)` loop). -/
def writeBytes (b : Buf) (off : ℕ) : List ℕ → Buf
  | [] => b
  | v :: vs => writeBytes (setB b off v) (off + 1) vs

/-- Little-endian read of a 4-byte field. -/
def readU32 (b : Buf) (off : ℕ) : ℕ :=
  b off + 256 * b (off + 1) + 65536 * b (off + 2) + 16777216 * b (off + 3)

/-- Little-endian read of a 2-byte field. -/
def readU16 (b : Buf) (off : ℕ) : ℕ :=
  b off + 256 * b (off + 1)

/-- Sum of the bytes `b[lo], b[lo+1], ..., b[lo+n-1]` (the checksum loop
`for i in range(0x10, len(buffer))`). -/
def sumRange (b : Buf) (lo : ℕ) : ℕ → ℕ
  | 0 => 0
  | n + 1 => sumRange b lo n + b (lo + n)

lemma setB_self (b : Buf) (i v : ℕ) : setB b i v i = v := by simp [setB]

lemma setB_outside (b : Buf) (i v : ℕ) {j : ℕ} (h : j ≠ i) : setB b i v j = b j := by
  simp [setB, h]

lemma pack32_outside (b : Buf) (off v : ℕ) {j : ℕ} (h : j < off ∨ off + 4 ≤ j) :
    pack32 b off v j = b j := by
  unfold pack32
  rw [setB_outside _ _ _ (by omega), setB_outside _ _ _ (by omega),
    setB_outside _ _ _ (by omega), setB_outside _ _ _ (by omega)]

lemma pack16_outside (b : Buf) (off v : ℕ) {j : ℕ} (h : j < off ∨ off + 2 ≤ j) :
    pack16 b off v j = b j := by
  unfold pack16
  rw [setB_outside _ _ _ (by omega), setB_outside _ _ _ (by omega)]

lemma packNeg_outside (b : Buf) (off : ℕ) {j : ℕ} (h : j < off ∨ off + 4 ≤ j) :
    packNeg b off j = b j := by
  unfold packNeg
  rw [setB_outside _ _ _ (by omega), setB_outside _ _ _ (by omega),
    setB_outside _ _ _ (by omega), setB_outside _ _ _ (by omega)]

lemma writeBytes_outside (l : List ℕ) (b : Buf) (off : ℕ) {j : ℕ}
    (h : j < off ∨ off + l.length ≤ j) : writeBytes b off l j = b j := by
  induction l generalizing b off with
  | nil => rfl
  | cons v vs ih =>
      simp only [writeBytes]
      rw [ih _ _ (by simp at h ⊢; omega), setB_outside _ _ _ (by simp at h; omega)]

lemma readU32_ext {f g : Buf} {off : ℕ} (h0 : f off = g off)
    (h1 : f (off + 1) = g (off + 1)) (h2 : f (off + 2) = g (off + 2))
    (h3 : f (off + 3) = g (off + 3)) : readU32 f off = readU32 g off := by
  unfold readU32; rw [h0, h1, h2, h3]

lemma readU16_ext {f g : Buf} {off : ℕ} (h0 : f off = g off)
    (h1 : f (off + 1) = g (off + 1)) : readU16 f off = readU16 g off := by
  unfold readU16; rw [h0, h1]

lemma readU32_pack32_outside (b : Buf) (off v : ℕ) {j : ℕ}
    (h : j + 4 ≤ off ∨ off + 4 ≤ j) : readU32 (pack32 b off v) j = readU32 b j :=
  readU32_ext (pack32_outside _ _ _ (by omega)) (pack32_outside _ _ _ (by omega))
    (pack32_outside _ _ _ (by omega)) (pack32_outside _ _ _ (by omega))

lemma readU32_pack16_outside (b : Buf) (off v : ℕ) {j : ℕ}
    (h : j + 4 ≤ off ∨ off + 2 ≤ j) : readU32 (pack16 b off v) j = readU32 b j :=
  readU32_ext (pack16_outside _ _ _ (by omega)) (pack16_outside _ _ _ (by omega))
    (pack16_outside _ _ _ (by omega)) (pack16_outside _ _ _ (by omega))

lemma readU32_packNeg_outside (b : Buf) (off : ℕ) {j : ℕ}
    (h : j + 4 ≤ off ∨ off + 4 ≤ j) : readU32 (packNeg b off) j = readU32 b j :=
  readU32_ext (packNeg_outside _ _ (by omega)) (packNeg_outside _ _ (by omega))
    (packNeg_outside _ _ (by omega)) (packNeg_outside _ _ (by omega))

lemma readU32_setB_outside (b : Buf) (i v : ℕ) {j : ℕ}
    (h : j + 4 ≤ i ∨ i + 1 ≤ j) : readU32 (setB b i v) j = readU32 b j :=
  readU32_ext (setB_outside _ _ _ (by omega)) (setB_outside _ _ _ (by omega))
    (setB_outside _ _ _ (by omega)) (setB_outside _ _ _ (by omega))

lemma readU16_pack32_outside (b : Buf) (off v : ℕ) {j : ℕ}
    (h : j + 2 ≤ off ∨ off + 4 ≤ j) : readU16 (pack32 b off v) j = readU16 b j :=
  readU16_ext (pack32_outside _ _ _ (by omega)) (pack32_outside _ _ _ (by omega))

lemma readU16_setB_outside (b : Buf) (i v : ℕ) {j : ℕ}
    (h : j + 2 ≤ i ∨ i + 1 ≤ j) : readU16 (setB b i v) j = readU16 b j :=
  readU16_ext (setB_outside _ _ _ (by omega)) (setB_outside _ _ _ (by omega))

lemma readU16_pack16_outside (b : Buf) (off v : ℕ) {j : ℕ}
    (h : j + 2 ≤ off ∨ off + 2 ≤ j) : readU16 (pack16 b off v) j = readU16 b j :=
  readU16_ext (pack16_outside _ _ _ (by omega)) (pack16_outside _ _ _ (by omega))

lemma readU32_pack32_self (b : Buf) (off v : ℕ) :
    readU32 (pack32 b off v) off = v % 4294967296 := by
  have h0 : pack32 b off v off = v % 256 := by
    unfold pack32
    rw [setB_outside _ _ _ (by omega), setB_outside _ _ _ (by omega),
      setB_outside _ _ _ (by omega), setB_self]
  have h1 : pack32 b off v (off + 1) = v / 256 % 256 := by
    unfold pack32
    rw [setB_outside _ _ _ (by omega), setB_outside _ _ _ (by omega), setB_self]
  have h2 : pack32 b off v (off + 2) = v / 65536 % 256 := by
    unfold pack32
    rw [setB_outside _ _ _ (by omega), setB_self]
  have h3 : pack32 b off v (off + 3) = v / 16777216 % 256 := by
    unfold pack32
    rw [setB_self]
  unfold readU32
  rw [h0, h1, h2, h3]
  omega

lemma readU16_pack16_self (b : Buf) (off v : ℕ) :
    readU16 (pack16 b off v) off = v % 65536 := by
  have h0 : pack16 b off v off = v % 256 := by
    unfold pack16
    rw [setB_outside _ _ _ (by omega), setB_self]
  have h1 : pack16 b off v (off + 1) = v / 256 % 256 := by
    unfold pack16
    rw [setB_self]
  unfold readU16
  rw [h0, h1]
  omega

lemma readU32_packNeg_self (b : Buf) (off : ℕ) :
    readU32 (packNeg b off) off = 4294967295 := by
  have h0 : packNeg b off off = 255 := by
    unfold packNeg
    rw [setB_outside _ _ _ (by omega), setB_outside _ _ _ (by omega),
      setB_outside _ _ _ (by omega), setB_self]
  have h1 : packNeg b off (off + 1) = 255 := by
    unfold packNeg
    rw [setB_outside _ _ _ (by omega), setB_outside _ _ _ (by omega), setB_self]
  have h2 : packNeg b off (off + 2) = 255 := by
    unfold packNeg
    rw [setB_outside _ _ _ (by omega), setB_self]
  have h3 : packNeg b off (off + 3) = 255 := by
    unfold packNeg
    rw [setB_self]
  unfold readU32
  rw [h0, h1, h2, h3]

lemma sumRange_congr {f g : Buf} {lo : ℕ} (n : ℕ)
    (h : ∀ j, lo ≤ j → j < lo + n → f j = g j) :
    sumRange f lo n = sumRange g lo n := by
  induction n with
  | zero => rfl
  | succ n ih =>
      simp only [sumRange]
      rw [ih (fun j h1 h2 => h j h1 (by omega)), h (lo + n) (by omega) (by omega)]

/-!  ### The encoder `generate_ot_file`  -/

/-- Truncation toward zero of the fraction `n / d`, computed on the numerator
and denominator so that it is kernel-computable.  This models Python `int()`
applied to a (non-negative or negative) ratio. -/
def itruncND (n : ℤ) (d : ℕ) : ℤ :=
  if 0 ≤ n then ((n.toNat / d : ℕ) : ℤ) else -((n.natAbs / d : ℕ) : ℤ)

/-- Truncation toward zero of a rational, the mathematical reading of Python
`int()` on a float (floats idealized as exact rationals). -/
def ratTrunc (q : ℚ) : ℤ := if q < 0 then ⌈q⌉ else ⌊q⌋

/-- Numerator of `0x30 + (gain - 12) * 4` over the denominator `gain.den`:
`gain_value = int(0x30 + ((gain - 12) * 4))` from the source, written on
`num`/`den` so it evaluates in the kernel.  `gainValue_eq_ratTrunc` below
shows it equals the clamp of `ratTrunc (0x30 + (gain - 12) * 4)`. -/
def gainRaw (g : ℚ) : ℤ := 48 * (g.den : ℤ) + (g.num - 12 * (g.den : ℤ)) * 4

/-- Model of the source's gain encoding:
`gain_value = int(0x30 + ((gain - 12) * 4)); gain_value = max(0, min(0xFF, gain_value))`. -/
def gainValue (g : ℚ) : ℕ :=
  (max 0 (min 255 (itruncND (gainRaw g) g.den))).toNat

/-- Model of the source's bars computation: with `tempo = 120` fixed,
`total_seconds = audio_length_samples / sample_rate`,
`bars_value = int(total_seconds / ((60 / tempo) * 4) * 100)` when
`audio_length_samples > 0`, else `400`.  `int()` of the non-negative exact
ratio is the floor, i.e. natural division. -/
def barsValue (sr al : ℕ) : ℕ :=
  if 0 < al then al * 100 / (sr * 2) else 400

/-- The literal `form_header` byte list from the source (23 bytes). -/
def form_header : List ℕ :=
  [0x46, 0x4F, 0x52, 0x4D,
   0x00, 0x00, 0x00, 0x00,
   0x44, 0x50, 0x53, 0x31,
   0x53, 0x4D, 0x50, 0x41,
   0x00, 0x00, 0x00, 0x00,
   0x00, 0x02, 0x00]

/-- One iteration of the slice-table loop: for slice `i` at
`offset = 0x3A + 12 * i`, write `startSample`, `endSample` and the loop point
`-1`; entries past the supplied list are written as `0, 0, -1`.  Mirrors the
`for i in range(64)` body of `generate_ot_file`. -/
def writeSliceEntry (s : List ℕ) (a : ℕ) (b : Buf) (i : ℕ) : Buf :=
  if i < s.length then
    packNeg
      (pack32 (pack32 b (0x3A + 12 * i) (s.getD i 0)) (0x3A + 12 * i + 4)
        (if i < s.length - 1 then s.getD (i + 1) 0 else a))
      (0x3A + 12 * i + 8)
  else
    packNeg (pack32 (pack32 b (0x3A + 12 * i) 0) (0x3A + 12 * i + 4) 0)
      (0x3A + 12 * i + 8)

/-- Write slice entries `i, i+1, ..., i+n-1`. -/
def writeSlicesAux (s : List ℕ) (a : ℕ) (b : Buf) (i : ℕ) : ℕ → Buf
  | 0 => b
  | n + 1 => writeSlicesAux s a (writeSliceEntry s a b i) (i + 1) n

/-- The whole slice-table loop `for i in range(64)`. -/
def writeSlices (s : List ℕ) (a : ℕ) (b : Buf) : Buf :=
  writeSlicesAux s a b 0 64

/-- The buffer after all fixed-offset header fields of `generate_ot_file`,
in source order: FORM header, BPM (`tempo * 6 * 4` with `tempo = 120`),
trim length and loop length (`bars_value`), time stretch `0`, loop on/off `0`
(`loop_mode = False`), gain, quantize byte (`min(0xFF, max(0, 16))`),
trim start `0`, trim end (`audio_length_samples`), loop start `0`. -/
def bufA (sr al : ℕ) (g : ℚ) : Buf :=
  pack32
    (pack32
      (pack32
        (setB
          (pack16
            (pack32
              (pack32
                (pack32
                  (pack32
                    (pack32 (writeBytes (fun _ => 0) 0 form_header) 0x17
                      (120 * 6 * 4))
                    0x1B (barsValue sr al))
                  0x1F (barsValue sr al))
                0x23 0)
              0x27 0)
            0x2B (gainValue g))
          0x2D (min 0xFF (max 0 16)))
        0x2E 0)
      0x32 al)
    0x36 0

/-- Millisecond-to-sample conversion used by the encoder:
`int(ms * sample_rate / 1000)` (floor of the exact non-negative ratio). -/
def msToSamples (sr ms : ℕ) : ℕ := ms * sr / 1000

/-- The 832-byte buffer of `generate_ot_file` just before the checksum is
computed and written: header fields, the 64-entry slice table from
`slice_samples = [int(ms * sample_rate / 1000) for ms in slice_points]`, and
the slice count `len(slice_samples)` at `0x33A`. -/
def otBufferPre (sp : List ℕ) (sr al : ℕ) (g : ℚ) : Buf :=
  pack32 (writeSlices (sp.map (msToSamples sr)) al (bufA sr al g)) 0x33A
    (sp.map (msToSamples sr)).length

/-- The checksum loop `for i in range(0x10, len(buffer)): checksum += buffer[i]`
(the buffer is `0x340` bytes, so this sums the `0x330` bytes from `0x10`). -/
def otChecksum (b : Buf) : ℕ := sumRange b 0x10 0x330

/-- The final 832-byte buffer of `generate_ot_file`: the checksum, masked with
`& 0xFFFF`, is packed at `0x33E` after every other field is written. -/
def generate_ot_buffer (sp : List ℕ) (sr al : ℕ) (g : ℚ) : Buf :=
  pack16 (otBufferPre sp sr al g) 0x33E (otChecksum (otBufferPre sp sr al g) % 0x10000)

/-!  ### Output-path derivation

`generate_ot_file` derives its output path as
`ot_file = output_file.replace('.wav', '.ot')`: every occurrence of the
substring `.wav` is replaced, left to right and non-overlapping, by `.ot`.
`replFuel` implements exactly that scan with an explicit fuel argument (the
fuel, initialized to the string length, never runs out because each step
consumes at least one character). -/

def replFuel : ℕ → List Char → List Char
  | 0, l => l
  | _ + 1, [] => []
  | fuel + 1, c :: rest =>
    if (c :: rest).take 4 = ['.', 'w', 'a', 'v'] then
      '.' :: 'o' :: 't' :: replFuel fuel (rest.drop 3)
    else c :: replFuel fuel rest

/-- Python `s.replace('.wav', '.ot')` on the character list of `s`. -/
def repl (l : List Char) : List Char := replFuel l.length l

/-- Whether `.wav` occurs as a substring. -/
def hasWav : List Char → Bool
  | [] => false
  | c :: rest =>
    if (c :: rest).take 4 = ['.', 'w', 'a', 'v'] then true else hasWav rest

/-- Model of `output_file.replace('.wav', '.ot')`. -/
def otPathFn (s : String) : String := ⟨repl s.data⟩

/-- Model of `generate_ot_file(slice_points, output_file, ...)`: the pair of
the metadata path the function writes to and the 832-byte buffer it writes. -/
def generate_ot_file (sp : List ℕ) (output_file : String) (sr al : ℕ) (g : ℚ) :
    String × Buf :=
  (otPathFn output_file, generate_ot_buffer sp sr al g)

/-!  ### The chain planner `run_chain_mode`

The per-file decoding/processing (`process_sample`) is an external codec
concern; a decode failure is modelled as `none` in the input list, a decoded
and processed clip as `some clip`. -/

/-- First step of `run_chain_mode`: if `--slices` was given (a Python truthy
value, i.e. non-zero), keep only the first `slices` files; otherwise keep only
the first 64. -/
def truncFiles (files : List (Option Clip)) (slices : Option ℕ) : List (Option Clip) :=
  match slices with
  | some t =>
      if 0 < t then (if t < files.length then files.take t else files)
      else (if 64 < files.length then files.take 64 else files)
  | none => if 64 < files.length then files.take 64 else files

/-- The processed-sample list: files are truncated first, then each file is
processed, failures being skipped. -/
def processedOf (files : List (Option Clip)) (slices : Option ℕ) : List Clip :=
  (truncFiles files slices).filterMap id

/-- The uniform slice length (ms): `max_slice_length` when given (truthy),
otherwise the length of the longest processed sample.  (In the source the
`max_slice_length < longest` and `max_slice_length >= longest` branches differ
only in the warning they print.)  Only evaluated on a non-empty list, as in the
source, where `max()` would otherwise raise. -/
def sliceLenOf (processed : List Clip) (maxLen : Option ℕ) : ℕ :=
  let longest := (processed.map List.length).foldl max 0
  match maxLen with
  | some m => if 0 < m then m else longest
  | none => longest

/-- Truncate a sample to the slice length if longer, then pad it with trailing
silence to exactly the slice length. -/
def padClip (sliceLen : ℕ) (s : Clip) : Clip :=
  let s := if sliceLen < s.length then s.take sliceLen else s
  if 0 < sliceLen - s.length then s ++ List.replicate (sliceLen - s.length) (0 : ℤ)
  else s

/-- The padded-sample list of `run_chain_mode`: with `no_padding` the processed
samples are used as they are; otherwise each is truncated/padded to the uniform
slice length, and if a truthy `--slices` target exceeds the number of processed
samples, silent slices of the uniform length are appended up to the target
(the target itself being capped at 64). -/
def paddedOf (processed : List Clip) (slices : Option ℕ) (maxLen : Option ℕ)
    (noPadding : Bool) : List Clip :=
  if noPadding then processed
  else
    let sliceLen := sliceLenOf processed maxLen
    let padded0 := processed.map (padClip sliceLen)
    match slices with
    | some t =>
        if 0 < t ∧ processed.length < t then
          padded0 ++
            List.replicate ((if 64 < t then 64 else t) - processed.length)
              (List.replicate sliceLen (0 : ℤ))
        else padded0
    | none => padded0

/-- The slice-point accumulation loop: `slice_points.append(current_position_ms)`
then `current_position_ms += len(sample)`. -/
def slicePointsAux (pos : ℕ) : List ℕ → List ℕ
  | [] => []
  | d :: ds => pos :: slicePointsAux (pos + d) ds

/-- Start offsets (ms) of the padded samples: the running cumulative sum of
their lengths, starting at 0. -/
def slicePointsOf (padded : List Clip) : List ℕ :=
  slicePointsAux 0 (padded.map List.length)

/-- Total sample count of the assembled chain
(`len(final_chain.get_array_of_samples())`): the chain's duration in ms is the
sum of the padded sample lengths, converted at the fixed 44100 Hz rate of the
pipeline. -/
def totalSamplesOf (padded : List Clip) : ℕ :=
  (padded.map List.length).sum * 44100 / 1000

/-- Result of a `run_chain_mode` invocation: either an early return with the
message printed (before any audio or metadata output is written), or the
completed run with the audio path, the metadata path actually written, the
padded sample list, the slice points, the chain's sample count and the encoded
metadata buffer. -/
inductive ChainOutcome where
  | aborted (message : String)
  | done (audioPath otPath : String) (padded : List Clip) (slicePoints : List ℕ)
      (totalSamples : ℕ) (otBuffer : Buf)

/-- The Python process exit status of a run: `run_chain_mode` returns `None`
on every path and `main` never calls `sys.exit`, so the interpreter exits with
status 0 whether the run aborted early or completed. -/
def ChainOutcome.exitStatus : ChainOutcome → ℕ := fun _ => 0

def ChainOutcome.audioPathOut : ChainOutcome → String
  | .aborted _ => ""
  | .done p _ _ _ _ _ => p

def ChainOutcome.otPathOut : ChainOutcome → String
  | .aborted _ => ""
  | .done _ p _ _ _ _ => p

def ChainOutcome.paddedOut : ChainOutcome → List Clip
  | .aborted _ => []
  | .done _ _ p _ _ _ => p

def ChainOutcome.bufOut : ChainOutcome → Buf
  | .aborted _ => fun _ => 0
  | .done _ _ _ _ _ b => b

/-- Model of `run_chain_mode`: find/decode results come in as `files`; the run
aborts (printing the message, writing nothing) if no files were found or no
file survived processing; otherwise the padded chain is assembled, exported to
`output_file`, and `generate_ot_file` is called on the slice points with the
path `output_file.replace('.wav', '.ot')` (which `generate_ot_file` replaces
again), the fixed 44100 Hz rate, the chain's sample count and the `--ot-gain`
value. -/
def run_chain_mode (files : List (Option Clip)) (output_file : String)
    (slices maxSliceLength : Option ℕ) (noPadding : Bool) (otGain : ℚ) :
    ChainOutcome :=
  if files.isEmpty then .aborted "No audio files found to process."
  else
    let processed := processedOf files slices
    if processed.isEmpty then .aborted "No valid audio files were processed."
    else
      let padded := paddedOf processed slices maxSliceLength noPadding
      let pts := slicePointsOf padded
      let total := totalSamplesOf padded
      let ot := generate_ot_file pts (otPathFn output_file) 44100 total otGain
      .done output_file ot.1 padded pts total ot.2

/-!  ### Reading fields back from the encoded buffer  -/

lemma writeSliceEntry_outside (s : List ℕ) (a : ℕ) (b : Buf) (i : ℕ) {j : ℕ}
    (h : j < 0x3A + 12 * i ∨ 0x3A + 12 * i + 12 ≤ j) :
    writeSliceEntry s a b i j = b j := by
  unfold writeSliceEntry
  split <;>
    rw [packNeg_outside _ _ (by omega), pack32_outside _ _ _ (by omega),
      pack32_outside _ _ _ (by omega)]

lemma writeSlicesAux_outside (s : List ℕ) (a : ℕ) (n : ℕ) :
    ∀ (b : Buf) (i : ℕ) {j : ℕ}, (j < 0x3A + 12 * i ∨ 0x3A + 12 * (i + n) ≤ j) →
      writeSlicesAux s a b i n j = b j := by
  induction n with
  | zero => intro b i j _; rfl
  | succ n ih =>
      intro b i j h
      simp only [writeSlicesAux]
      rw [ih _ _ (by omega), writeSliceEntry_outside _ _ _ _ (by omega)]

lemma writeSlices_outside (s : List ℕ) (a : ℕ) (b : Buf) {j : ℕ}
    (h : j < 0x3A ∨ 0x33A ≤ j) : writeSlices s a b j = b j :=
  writeSlicesAux_outside s a 64 b 0 (by omega)

lemma readU32_writeSlices_outside (s : List ℕ) (a : ℕ) (b : Buf) {j : ℕ}
    (h : j + 4 ≤ 0x3A ∨ 0x33A ≤ j) : readU32 (writeSlices s a b) j = readU32 b j :=
  readU32_ext (writeSlices_outside _ _ _ (by omega)) (writeSlices_outside _ _ _ (by omega))
    (writeSlices_outside _ _ _ (by omega)) (writeSlices_outside _ _ _ (by omega))

lemma readU16_writeSlices_outside (s : List ℕ) (a : ℕ) (b : Buf) {j : ℕ}
    (h : j + 2 ≤ 0x3A ∨ 0x33A ≤ j) : readU16 (writeSlices s a b) j = readU16 b j :=
  readU16_ext (writeSlices_outside _ _ _ (by omega)) (writeSlices_outside _ _ _ (by omega))

lemma entry_read_start (s : List ℕ) (a : ℕ) (b : Buf) (i : ℕ) :
    readU32 (writeSliceEntry s a b i) (0x3A + 12 * i) =
      (if i < s.length then s.getD i 0 else 0) % 4294967296 := by
  unfold writeSliceEntry
  split <;>
    rw [readU32_packNeg_outside _ _ (by omega), readU32_pack32_outside _ _ _ (by omega),
      readU32_pack32_self]

lemma entry_read_loop (s : List ℕ) (a : ℕ) (b : Buf) (i : ℕ) :
    readU32 (writeSliceEntry s a b i) (0x3A + 12 * i + 8) = 4294967295 := by
  unfold writeSliceEntry
  split <;> rw [readU32_packNeg_self]

lemma writeSlicesAux_read_start (s : List ℕ) (a : ℕ) (n : ℕ) :
    ∀ (b : Buf) (i t : ℕ), i ≤ t → t < i + n →
      readU32 (writeSlicesAux s a b i n) (0x3A + 12 * t) =
        (if t < s.length then s.getD t 0 else 0) % 4294967296 := by
  induction n with
  | zero => intro b i t h1 h2; omega
  | succ n ih =>
      intro b i t h1 h2
      simp only [writeSlicesAux]
      rcases Nat.eq_or_lt_of_le h1 with he | hlt
      · subst he
        rw [readU32_ext (writeSlicesAux_outside s a n _ _ (by omega))
            (writeSlicesAux_outside s a n _ _ (by omega))
            (writeSlicesAux_outside s a n _ _ (by omega))
            (writeSlicesAux_outside s a n _ _ (by omega)),
          entry_read_start]
      · exact ih _ _ _ hlt (by omega)

lemma writeSlicesAux_read_loop (s : List ℕ) (a : ℕ) (n : ℕ) :
    ∀ (b : Buf) (i t : ℕ), i ≤ t → t < i + n →
      readU32 (writeSlicesAux s a b i n) (0x3A + 12 * t + 8) = 4294967295 := by
  induction n with
  | zero => intro b i t h1 h2; omega
  | succ n ih =>
      intro b i t h1 h2
      simp only [writeSlicesAux]
      rcases Nat.eq_or_lt_of_le h1 with he | hlt
      · subst he
        rw [readU32_ext (writeSlicesAux_outside s a n _ _ (by omega))
            (writeSlicesAux_outside s a n _ _ (by omega))
            (writeSlicesAux_outside s a n _ _ (by omega))
            (writeSlicesAux_outside s a n _ _ (by omega)),
          entry_read_loop]
      · exact ih _ _ _ hlt (by omega)

lemma writeSlices_read_start (s : List ℕ) (a : ℕ) (b : Buf) {t : ℕ} (ht : t < 64) :
    readU32 (writeSlices s a b) (0x3A + 12 * t) =
      (if t < s.length then s.getD t 0 else 0) % 4294967296 :=
  writeSlicesAux_read_start s a 64 b 0 t (by omega) (by omega)

lemma writeSlices_read_loop (s : List ℕ) (a : ℕ) (b : Buf) {t : ℕ} (ht : t < 64) :
    readU32 (writeSlices s a b) (0x3A + 12 * t + 8) = 4294967295 :=
  writeSlicesAux_read_loop s a 64 b 0 t (by omega) (by omega)

lemma gainValue_le (g : ℚ) : gainValue g ≤ 255 := by
  unfold gainValue
  have h : max 0 (min 255 (itruncND (gainRaw g) g.den)) ≤ (255 : ℤ) :=
    max_le (by norm_num) (min_le_left _ _)
  exact Int.toNat_le.mpr h

lemma bufA_read_1B (sr al : ℕ) (g : ℚ) :
    readU32 (bufA sr al g) 0x1B = barsValue sr al % 4294967296 := by
  unfold bufA
  rw [readU32_pack32_outside _ _ _ (by omega), readU32_pack32_outside _ _ _ (by omega),
    readU32_pack32_outside _ _ _ (by omega), readU32_setB_outside _ _ _ (by omega),
    readU32_pack16_outside _ _ _ (by omega), readU32_pack32_outside _ _ _ (by omega),
    readU32_pack32_outside _ _ _ (by omega), readU32_pack32_outside _ _ _ (by omega),
    readU32_pack32_self]

lemma bufA_read_1F (sr al : ℕ) (g : ℚ) :
    readU32 (bufA sr al g) 0x1F = barsValue sr al % 4294967296 := by
  unfold bufA
  rw [readU32_pack32_outside _ _ _ (by omega), readU32_pack32_outside _ _ _ (by omega),
    readU32_pack32_outside _ _ _ (by omega), readU32_setB_outside _ _ _ (by omega),
    readU32_pack16_outside _ _ _ (by omega), readU32_pack32_outside _ _ _ (by omega),
    readU32_pack32_outside _ _ _ (by omega), readU32_pack32_self]

lemma bufA_read_2B (sr al : ℕ) (g : ℚ) : readU16 (bufA sr al g) 0x2B = gainValue g := by
  unfold bufA
  rw [readU16_pack32_outside _ _ _ (by omega), readU16_pack32_outside _ _ _ (by omega),
    readU16_pack32_outside _ _ _ (by omega), readU16_setB_outside _ _ _ (by omega),
    readU16_pack16_self]
  exact Nat.mod_eq_of_lt (lt_of_le_of_lt (gainValue_le g) (by norm_num))

lemma bufA_high_zero (sr al : ℕ) (g : ℚ) {j : ℕ} (hj : 0x3A ≤ j) : bufA sr al g j = 0 := by
  unfold bufA
  rw [pack32_outside _ _ _ (by omega), pack32_outside _ _ _ (by omega),
    pack32_outside _ _ _ (by omega), setB_outside _ _ _ (by omega),
    pack16_outside _ _ _ (by omega), pack32_outside _ _ _ (by omega),
    pack32_outside _ _ _ (by omega), pack32_outside _ _ _ (by omega),
    pack32_outside _ _ _ (by omega), pack32_outside _ _ _ (by omega),
    writeBytes_outside _ _ _ (Or.inr (by simp [form_header]; omega))]

lemma pre_read_1B (sp : List ℕ) (sr al : ℕ) (g : ℚ) :
    readU32 (otBufferPre sp sr al g) 0x1B = barsValue sr al % 4294967296 := by
  unfold otBufferPre
  rw [readU32_pack32_outside _ _ _ (by omega), readU32_writeSlices_outside _ _ _ (by omega),
    bufA_read_1B]

lemma pre_read_1F (sp : List ℕ) (sr al : ℕ) (g : ℚ) :
    readU32 (otBufferPre sp sr al g) 0x1F = barsValue sr al % 4294967296 := by
  unfold otBufferPre
  rw [readU32_pack32_outside _ _ _ (by omega), readU32_writeSlices_outside _ _ _ (by omega),
    bufA_read_1F]

lemma pre_read_2B (sp : List ℕ) (sr al : ℕ) (g : ℚ) :
    readU16 (otBufferPre sp sr al g) 0x2B = gainValue g := by
  unfold otBufferPre
  rw [readU16_pack32_outside _ _ _ (by omega), readU16_writeSlices_outside _ _ _ (by omega),
    bufA_read_2B]

lemma pre_read_count (sp : List ℕ) (sr al : ℕ) (g : ℚ) :
    readU32 (otBufferPre sp sr al g) 0x33A = sp.length % 4294967296 := by
  unfold otBufferPre
  rw [readU32_pack32_self, List.length_map]

lemma map_getD (f : ℕ → ℕ) (l : List ℕ) (i : ℕ) (d : ℕ) :
    (l.map f).getD i (f d) = f (l.getD i d) := by
  induction l generalizing i with
  | nil => simp [List.getD]
  | cons x xs ih => cases i <;> simp [List.getD, ih]

lemma msToSamples_zero (sr : ℕ) : msToSamples sr 0 = 0 := by simp [msToSamples]

lemma map_getD0 (sr : ℕ) (l : List ℕ) (i : ℕ) :
    (l.map (msToSamples sr)).getD i 0 = msToSamples sr (l.getD i 0) := by
  have h := map_getD (msToSamples sr) l i 0
  rwa [msToSamples_zero] at h

lemma pre_read_start (sp : List ℕ) (sr al : ℕ) (g : ℚ) {t : ℕ} (ht : t < 64) :
    readU32 (otBufferPre sp sr al g) (0x3A + 12 * t) =
      (if t < sp.length then msToSamples sr (sp.getD t 0) else 0) % 4294967296 := by
  unfold otBufferPre
  rw [readU32_pack32_outside _ _ _ (by omega), writeSlices_read_start _ _ _ ht,
    List.length_map]
  congr 1
  split
  · exact map_getD0 sr sp t
  · rfl

lemma pre_read_loop (sp : List ℕ) (sr al : ℕ) (g : ℚ) {t : ℕ} (ht : t < 64) :
    readU32 (otBufferPre sp sr al g) (0x3A + 12 * t + 8) = 4294967295 := by
  unfold otBufferPre
  rw [readU32_pack32_outside _ _ _ (by omega), writeSlices_read_loop _ _ _ ht]

lemma pre_high_zero (sp : List ℕ) (sr al : ℕ) (g : ℚ) {j : ℕ} (hj : 0x33E ≤ j) :
    otBufferPre sp sr al g j = 0 := by
  unfold otBufferPre
  rw [pack32_outside _ _ _ (by omega), writeSlices_outside _ _ _ (by omega),
    bufA_high_zero _ _ _ (by omega)]

lemma gen_read_1B (sp : List ℕ) (sr al : ℕ) (g : ℚ) :
    readU32 (generate_ot_buffer sp sr al g) 0x1B = barsValue sr al % 4294967296 := by
  unfold generate_ot_buffer
  rw [readU32_pack16_outside _ _ _ (by omega), pre_read_1B]

lemma gen_read_1F (sp : List ℕ) (sr al : ℕ) (g : ℚ) :
    readU32 (generate_ot_buffer sp sr al g) 0x1F = barsValue sr al % 4294967296 := by
  unfold generate_ot_buffer
  rw [readU32_pack16_outside _ _ _ (by omega), pre_read_1F]

lemma gen_read_2B (sp : List ℕ) (sr al : ℕ) (g : ℚ) :
    readU16 (generate_ot_buffer sp sr al g) 0x2B = gainValue g := by
  unfold generate_ot_buffer
  rw [readU16_pack16_outside _ _ _ (by omega), pre_read_2B]

lemma gen_read_count (sp : List ℕ) (sr al : ℕ) (g : ℚ) :
    readU32 (generate_ot_buffer sp sr al g) 0x33A = sp.length % 4294967296 := by
  unfold generate_ot_buffer
  rw [readU32_pack16_outside _ _ _ (by omega), pre_read_count]

lemma gen_read_start (sp : List ℕ) (sr al : ℕ) (g : ℚ) {t : ℕ} (ht : t < 64) :
    readU32 (generate_ot_buffer sp sr al g) (0x3A + 12 * t) =
      (if t < sp.length then msToSamples sr (sp.getD t 0) else 0) % 4294967296 := by
  unfold generate_ot_buffer
  rw [readU32_pack16_outside _ _ _ (by omega), pre_read_start _ _ _ _ ht]

lemma gen_read_loop (sp : List ℕ) (sr al : ℕ) (g : ℚ) {t : ℕ} (ht : t < 64) :
    readU32 (generate_ot_buffer sp sr al g) (0x3A + 12 * t + 8) = 4294967295 := by
  unfold generate_ot_buffer
  rw [readU32_pack16_outside _ _ _ (by omega), pre_read_loop _ _ _ _ ht]

lemma gen_read_checksum (sp : List ℕ) (sr al : ℕ) (g : ℚ) :
    readU16 (generate_ot_buffer sp sr al g) 0x33E =
      otChecksum (otBufferPre sp sr al g) % 65536 := by
  unfold generate_ot_buffer
  rw [readU16_pack16_self]
  omega

lemma sumRange_split (b : Buf) (lo m n : ℕ) :
    sumRange b lo (m + n) = sumRange b lo m + sumRange b (lo + m) n := by
  induction n with
  | zero => rfl
  | succ n ih =>
      rw [Nat.add_succ]
      simp only [sumRange]
      rw [ih]
      have h : lo + (m + n) = lo + m + n := by omega
      rw [h, Nat.add_assoc]

lemma otChecksum_pre (sp : List ℕ) (sr al : ℕ) (g : ℚ) :
    otChecksum (otBufferPre sp sr al g) = sumRange (otBufferPre sp sr al g) 0x10 0x32E := by
  unfold otChecksum
  rw [show (0x330 : ℕ) = 0x32E + 2 from rfl, sumRange_split]
  have h3 : sumRange (otBufferPre sp sr al g) (0x10 + 0x32E) 2 = 0 := by
    show 0 + otBufferPre sp sr al g (0x10 + 0x32E + 0) +
      otBufferPre sp sr al g (0x10 + 0x32E + 1) = 0
    rw [pre_high_zero _ _ _ _ (by omega), pre_high_zero _ _ _ _ (by omega)]
  rw [h3, Nat.add_zero]

lemma sumRange_gen_eq_pre (sp : List ℕ) (sr al : ℕ) (g : ℚ) :
    sumRange (generate_ot_buffer sp sr al g) 0x10 0x32E =
      sumRange (otBufferPre sp sr al g) 0x10 0x32E :=
  sumRange_congr _ (fun j _ h2 => by
    unfold generate_ot_buffer
    exact pack16_outside _ _ _ (by omega))

/-!  ### Properties of the `.wav` → `.ot` path replacement  -/

lemma take4_len {l : List Char} (h : l.take 4 = ['.', 'w', 'a', 'v']) : 4 ≤ l.length := by
  have h2 := congrArg List.length h
  simp [List.length_take] at h2
  omega

lemma replFuel_length_le : ∀ (fuel : ℕ) (l : List Char),
    (replFuel fuel l).length ≤ l.length := by
  intro fuel
  induction fuel with
  | zero => intro l; exact le_refl _
  | succ fuel ih =>
      intro l
      match l with
      | [] => simp [replFuel]
      | c :: rest =>
          simp only [replFuel]
          split
          · next h =>
              have h4 : 4 ≤ (c :: rest).length := take4_len h
              have h5 := ih (rest.drop 3)
              simp only [List.length_drop, List.length_cons] at h4 h5 ⊢
              omega
          · have h5 := ih rest
            simp only [List.length_cons]
            omega

lemma replFuel_length_lt : ∀ (fuel : ℕ) (l : List Char), l.length ≤ fuel →
    hasWav l = true → (replFuel fuel l).length < l.length := by
  intro fuel
  induction fuel with
  | zero =>
      intro l hl hw
      match l with
      | [] => simp [hasWav] at hw
      | c :: rest => simp at hl
  | succ fuel ih =>
      intro l hl hw
      match l with
      | [] => simp [hasWav] at hw
      | c :: rest =>
          simp only [replFuel]
          by_cases h : (c :: rest).take 4 = ['.', 'w', 'a', 'v']
          · rw [if_pos h]
            have h4 : 4 ≤ (c :: rest).length := take4_len h
            have hle := replFuel_length_le fuel (rest.drop 3)
            simp only [List.length_drop, List.length_cons] at h4 hle ⊢
            omega
          · rw [if_neg h]
            have hw2 : hasWav rest = true := by
              simp only [hasWav] at hw
              rwa [if_neg h] at hw
            have h6 := ih rest (by simp only [List.length_cons] at hl; omega) hw2
            simp only [List.length_cons]
            omega

lemma replFuel_id : ∀ (fuel : ℕ) (l : List Char), hasWav l = false →
    replFuel fuel l = l := by
  intro fuel
  induction fuel with
  | zero => intro l _; rfl
  | succ fuel ih =>
      intro l hw
      match l with
      | [] => rfl
      | c :: rest =>
          simp only [hasWav] at hw
          by_cases h : (c :: rest).take 4 = ['.', 'w', 'a', 'v']
          · rw [if_pos h] at hw
            exact absurd hw (by simp)
          · rw [if_neg h] at hw
            simp only [replFuel]
            rw [if_neg h, ih rest hw]

lemma repl_length_le (l : List Char) : (repl l).length ≤ l.length :=
  replFuel_length_le _ _

lemma repl_length_lt {l : List Char} (hw : hasWav l = true) :
    (repl l).length < l.length :=
  replFuel_length_lt _ _ (le_refl _) hw

lemma repl_id {l : List Char} (hw : hasWav l = false) : repl l = l :=
  replFuel_id _ _ hw

/-- Applying the replacement twice (once in `run_chain_mode`, once in
`generate_ot_file`) changes the path exactly when `.wav` occurs in it. -/
lemma repl_repl_ne_iff (l : List Char) : repl (repl l) ≠ l ↔ hasWav l = true := by
  constructor
  · intro hne
    by_contra h
    simp only [Bool.not_eq_true] at h
    rw [repl_id h, repl_id h] at hne
    exact hne rfl
  · intro hw heq
    have h1 : (repl (repl l)).length ≤ (repl l).length := repl_length_le _
    have h2 : (repl l).length < l.length := repl_length_lt hw
    have h3 := congrArg List.length heq
    omega

lemma otPathFn_twice_ne_iff (s : String) :
    otPathFn (otPathFn s) ≠ s ↔ hasWav s.data = true := by
  obtain ⟨d⟩ := s
  show (⟨repl (repl d)⟩ : String) ≠ ⟨d⟩ ↔ hasWav d = true
  rw [← repl_repl_ne_iff d]
  constructor
  · intro h1 h2
    exact h1 (by rw [h2])
  · intro h1 h2
    exact h1 (congrArg String.data h2)

/-!  ### Properties of the chain planner  -/

lemma slicePointsAux_length (ds : List ℕ) : ∀ (pos : ℕ),
    (slicePointsAux pos ds).length = ds.length := by
  induction ds with
  | nil => intro pos; rfl
  | cons d ds ih => intro pos; simp [slicePointsAux, ih]

lemma slicePointsOf_length (padded : List Clip) :
    (slicePointsOf padded).length = padded.length := by
  unfold slicePointsOf
  rw [slicePointsAux_length, List.length_map]

lemma getD_append_right {α : Type} (l1 l2 : List α) (d : α) (k : ℕ) :
    (l1 ++ l2).getD (l1.length + k) d = l2.getD k d := by
  induction l1 with
  | nil => simp
  | cons x xs ih =>
      simp only [List.cons_append, List.length_cons]
      rw [show xs.length + 1 + k = (xs.length + k) + 1 from by omega,
        List.getD_cons_succ, ih]

lemma getD_replicate {α : Type} (x d : α) : ∀ (n i : ℕ), i < n →
    (List.replicate n x).getD i d = x := by
  intro n
  induction n with
  | zero => intro i h; omega
  | succ n ih =>
      intro i h
      cases i with
      | zero => rfl
      | succ i =>
          simp only [List.replicate_succ, List.getD_cons_succ]
          exact ih i (by omega)

lemma filterMap_id_length_le (l : List (Option Clip)) :
    (l.filterMap id).length ≤ l.length := by
  induction l with
  | nil => simp
  | cons x xs ih =>
      cases x with
      | none =>
          show (List.filterMap id xs).length ≤ xs.length + 1
          omega
      | some c =>
          show (c :: List.filterMap id xs).length ≤ xs.length + 1
          simp only [List.length_cons]
          omega

lemma truncFiles_some_eq (files : List (Option Clip)) (t : ℕ) :
    truncFiles files (some t) =
      if 0 < t then (if t < files.length then files.take t else files)
      else (if 64 < files.length then files.take 64 else files) := rfl

lemma truncFiles_none_eq (files : List (Option Clip)) :
    truncFiles files none =
      if 64 < files.length then files.take 64 else files := rfl

lemma truncFiles_some_length_le (files : List (Option Clip)) {t : ℕ} (h0 : 0 < t) :
    (truncFiles files (some t)).length ≤ t := by
  rw [truncFiles_some_eq, if_pos h0]
  split
  · simp [List.length_take]
  · next h => simp only [not_lt] at h; omega

lemma truncFiles_none_length_le (files : List (Option Clip)) :
    (truncFiles files none).length ≤ 64 := by
  rw [truncFiles_none_eq]
  split
  · simp [List.length_take]
  · next h => simp only [not_lt] at h; omega

lemma processedOf_some_length_le (files : List (Option Clip)) {t : ℕ} (h0 : 0 < t) :
    (processedOf files (some t)).length ≤ t :=
  le_trans (filterMap_id_length_le _) (truncFiles_some_length_le files h0)

lemma processedOf_none_length_le (files : List (Option Clip)) :
    (processedOf files none).length ≤ 64 :=
  le_trans (filterMap_id_length_le _) (truncFiles_none_length_le files)

lemma processedOf_nil (slices : Option ℕ) : processedOf [] slices = [] := by
  unfold processedOf truncFiles
  cases slices with
  | none => rfl
  | some t => by_cases h : 0 < t <;> simp [h]

/-- With padding enabled and no (truthy, larger-than-`N`) slice target, the
padded list is exactly the processed clips, each truncated/padded to the
uniform slice length. -/
lemma paddedOf_no_append (processed : List Clip) (slices maxLen : Option ℕ)
    (h : ∀ t, slices = some t → ¬(0 < t ∧ processed.length < t)) :
    paddedOf processed slices maxLen false =
      processed.map (padClip (sliceLenOf processed maxLen)) := by
  unfold paddedOf
  cases slices with
  | none => simp
  | some t => simp only [Bool.false_eq_true, if_false]; rw [if_neg (h t rfl)]

/-- With padding enabled and a truthy slice target `t ≤ 64` exceeding the
processed count, silent slices are appended up to `t`. -/
lemma paddedOf_append (processed : List Clip) (maxLen : Option ℕ) {t : ℕ}
    (h0 : 0 < t) (hlt : processed.length < t) (ht : t ≤ 64) :
    paddedOf processed (some t) maxLen false =
      processed.map (padClip (sliceLenOf processed maxLen)) ++
        List.replicate (t - processed.length)
          (List.replicate (sliceLenOf processed maxLen) (0 : ℤ)) := by
  unfold paddedOf
  simp only [Bool.false_eq_true, if_false]
  rw [if_pos ⟨h0, hlt⟩, if_neg (by omega : ¬ 64 < t)]

lemma isEmpty_false_of_ne_nil {α : Type} {l : List α} (h : l ≠ []) :
    l.isEmpty = false := by
  cases l with
  | nil => exact absurd rfl h
  | cons x xs => rfl

/-- A run with found files and surviving processed clips completes, with the
outputs assembled from the padded plan. -/
lemma run_chain_mode_done (files : List (Option Clip)) (out : String)
    (slices maxLen : Option ℕ) (np : Bool) (g : ℚ) (hf : files ≠ [])
    (hp : processedOf files slices ≠ []) :
    run_chain_mode files out slices maxLen np g =
      .done out (otPathFn (otPathFn out))
        (paddedOf (processedOf files slices) slices maxLen np)
        (slicePointsOf (paddedOf (processedOf files slices) slices maxLen np))
        (totalSamplesOf (paddedOf (processedOf files slices) slices maxLen np))
        (generate_ot_buffer
          (slicePointsOf (paddedOf (processedOf files slices) slices maxLen np))
          44100
          (totalSamplesOf (paddedOf (processedOf files slices) slices maxLen np)) g) := by
  unfold run_chain_mode
  rw [isEmpty_false_of_ne_nil hf]
  simp only [Bool.false_eq_true, if_false]
  rw [isEmpty_false_of_ne_nil hp]
  rfl

/-!  ### The gain encoding equals truncation of the documented formula  -/

lemma itruncND_eq_ratTrunc (a : ℤ) (d : ℕ) (hd : 0 < d) :
    itruncND a d = ratTrunc ((a : ℚ) / (d : ℚ)) := by
  have hdq : (0 : ℚ) < (d : ℚ) := by exact_mod_cast hd
  unfold itruncND ratTrunc
  by_cases ha : 0 ≤ a
  · rw [if_pos ha, if_neg (not_lt.mpr (div_nonneg (by exact_mod_cast ha) (le_of_lt hdq)))]
    rw [Rat.floor_intCast_div_natCast]
    have h2 : a / (d : ℤ) = (a.toNat : ℤ) / (d : ℤ) := by rw [Int.toNat_of_nonneg ha]
    rw [h2, ← Int.ofNat_ediv]
  · have ha2 : a < 0 := lt_of_not_ge ha
    rw [if_neg ha, if_pos (div_neg_of_neg_of_pos (by exact_mod_cast ha2) hdq)]
    have hc : ⌈(a : ℚ) / (d : ℚ)⌉ = -⌊-((a : ℚ) / (d : ℚ))⌋ := by
      rw [← neg_neg ((a : ℚ) / (d : ℚ)), Int.ceil_neg, neg_neg]
    rw [hc]
    have h2 : -((a : ℚ) / (d : ℚ)) = ((a.natAbs : ℤ) : ℚ) / (d : ℚ) := by
      rw [Int.ofNat_natAbs_of_nonpos (le_of_lt ha2)]
      push_cast
      ring
    rw [h2, Rat.floor_intCast_div_natCast, Int.ofNat_ediv]

lemma gainRaw_div (g : ℚ) : (gainRaw g : ℚ) / (g.den : ℚ) = 48 + (g - 12) * 4 := by
  have h1 : (gainRaw g : ℚ) = 4 * (g.num : ℚ) := by
    unfold gainRaw
    push_cast
    ring
  rw [h1, mul_div_assoc, Rat.num_div_den]
  ring

/-- The kernel-computable gain encoding is the clamp of the truncation toward
zero of `0x30 + (gain - 12) * 4`, exactly as the source computes it. -/
lemma gainValue_eq_ratTrunc (g : ℚ) :
    (gainValue g : ℤ) = max 0 (min 255 (ratTrunc (48 + (g - 12) * 4))) := by
  unfold gainValue
  rw [itruncND_eq_ratTrunc _ _ g.den_pos, gainRaw_div,
    Int.toNat_of_nonneg (le_max_left 0 _)]

/-!  ### Spec-side definitions, following the specification text  -/

/-- The bars encoding as the specification words it:
`round(totalSeconds / ((60/tempo)*4) * 100)` with `tempo = 120`, else `400`.
Declared for comparison with the source's `barsValue`. -/
def specBarsValue (sr al : ℕ) : ℤ :=
  if 0 < al then round (((al : ℚ) / (sr : ℚ)) / ((60 / 120) * 4) * 100) else 400

/-- The gain encoding as the specification words it:
`clamp(0, 255, round(0x30 + (gainDb - 12) * 4))`.
Declared for comparison with the source's `gainValue`. -/
def specGainValue (g : ℚ) : ℤ := max 0 (min 255 (round ((0x30 : ℚ) + (g - 12) * 4)))

/-- The checksum recomputation as the specification words it:
`sum(buffer[0x10:0x33E] + buffer[0x33A:0x33E]) mod 0x10000`
(the `+` concatenates the two byte slices, so their sums add).
Declared for comparison with the stored checksum. -/
def specChecksumRecompute (b : Buf) : ℕ :=
  (sumRange b 0x10 0x32E + sumRange b 0x33A 4) % 0x10000

/-!  ### Claim theorems: the encoder  -/

/-- C2: for every call to `generate_ot_file`, the 16-bit checksum stored at
offset `0x33E` equals `sum(buffer[0x10:])` modulo `0x10000`, computed after
every other field (slice table and slice count included) is written; the
checksum field itself is still zero at that moment, so it is excluded from the
sum. -/
theorem c2_checksum_covers_buffer (sp : List ℕ) (sr al : ℕ) (g : ℚ) :
    readU16 (generate_ot_buffer sp sr al g) 0x33E =
      otChecksum (otBufferPre sp sr al g) % 0x10000
    ∧ otBufferPre sp sr al g 0x33E = 0 ∧ otBufferPre sp sr al g 0x33F = 0 :=
  ⟨gen_read_checksum sp sr al g, pre_high_zero _ _ _ _ (by omega),
    pre_high_zero _ _ _ _ (by omega)⟩

/-- C8 (amended): the stored checksum, recomputed independently from the
written buffer, equals `sum(buffer[0x10:0x33E]) mod 0x10000` — without the
extra `buffer[0x33A:0x33E]` summand the claim adds. -/
theorem c8_checksum_recompute_amended (sp : List ℕ) (sr al : ℕ) (g : ℚ) :
    readU16 (generate_ot_buffer sp sr al g) 0x33E =
      sumRange (generate_ot_buffer sp sr al g) 0x10 0x32E % 0x10000 := by
  rw [gen_read_checksum, otChecksum_pre, sumRange_gen_eq_pre]

set_option maxRecDepth 100000 in
set_option maxHeartbeats 1000000 in
/-- C8 (counterexample): for the one-slice chain `[0]` the claim's
recomputation `sum(buffer[0x10:0x33E] + buffer[0x33A:0x33E]) mod 0x10000`
double-counts the slice-count field and does not match the stored checksum. -/
theorem c8_counterexample :
    readU16 (generate_ot_buffer [0] 44100 44100 12) 0x33E ≠
      specChecksumRecompute (generate_ot_buffer [0] 44100 44100 12) := by
  decide

/-- C4 (amended): the trim-length/bars field at `0x1B` and the loop-length
field at `0x1F` hold `int(totalSeconds / ((60/tempo)*4) * 100)` — the floor
(truncation) of the exact ratio, not its rounding — when
`audio_length_samples > 0`, and `400` when it is `0`. -/
theorem c4_bars_floor_amended (sp : List ℕ) (sr al : ℕ) (g : ℚ)
    (h : barsValue sr al < 4294967296) :
    readU32 (generate_ot_buffer sp sr al g) 0x1B = barsValue sr al
    ∧ readU32 (generate_ot_buffer sp sr al g) 0x1F = barsValue sr al
    ∧ barsValue sr 0 = 400 := by
  refine ⟨?_, ?_, rfl⟩
  · rw [gen_read_1B, Nat.mod_eq_of_lt h]
  · rw [gen_read_1F, Nat.mod_eq_of_lt h]

theorem c4_witness :
    barsValue 44100 88200 < 4294967296 ∧
      (readU32 (generate_ot_buffer [0] 44100 88200 12) 0x1B = barsValue 44100 88200
      ∧ readU32 (generate_ot_buffer [0] 44100 88200 12) 0x1F = barsValue 44100 88200
      ∧ barsValue 44100 0 = 400) :=
  ⟨by decide, c4_bars_floor_amended [0] 44100 88200 12 (by decide)⟩

set_option maxRecDepth 100000 in
/-- C4 (counterexample): at `audio_length_samples = 1763`, `sample_rate = 44100`
the exact bars ratio is `1763/882 ≈ 1.9989`; the code stores its floor `1`,
while the claim's `round` formula gives `2`. -/
theorem c4_counterexample :
    readU32 (generate_ot_buffer [0] 44100 1763 12) 0x1B = 1
    ∧ specBarsValue 44100 1763 = 2 := by
  constructor
  · decide
  · unfold specBarsValue
    norm_num [round_eq]

/-- C5 (amended): the 2-byte gain field at `0x2B` holds
`clamp(0, 255, int(0x30 + (gainDb - 12) * 4))` — truncation toward zero, not
rounding; a gain of 12 dB encodes as `0x30` and a gain of 0 dB as `0x00`. -/
theorem c5_gain_trunc_amended (sp : List ℕ) (sr al : ℕ) (g : ℚ) :
    readU16 (generate_ot_buffer sp sr al g) 0x2B = gainValue g
    ∧ (gainValue g : ℤ) = max 0 (min 255 (ratTrunc (48 + (g - 12) * 4)))
    ∧ gainValue 12 = 0x30 ∧ gainValue 0 = 0 :=
  ⟨gen_read_2B sp sr al g, gainValue_eq_ratTrunc g, by decide, by decide⟩

set_option maxRecDepth 100000 in
/-- C5 (counterexample): at `gainDb = 61/5 = 12.2` the exact value
`0x30 + 0.8 = 48.8` is stored truncated as `48`, while the claim's `round`
formula gives `49`. -/
theorem c5_counterexample :
    readU16 (generate_ot_buffer [0] 44100 44100 (mkRat 61 5)) 0x2B = 48
    ∧ specGainValue (mkRat 61 5) = 49 := by
  constructor
  · decide
  · have h : (mkRat 61 5 : ℚ) = 61 / 5 := by
      rw [Rat.mkRat_eq_div]
      norm_num
    unfold specGainValue
    rw [h]
    norm_num [round_eq]

/-- C3 (amended): for every `slice_points` list the encoder writes
`len(slice_points)` — not `min(64, len(slice_points))` — to the 4-byte
slice-count field at `0x33A`, while the table itself holds only the first 64
entries. -/
theorem c3_count_unclamped_amended (sp : List ℕ) (sr al : ℕ) (g : ℚ)
    (h : sp.length < 4294967296) :
    readU32 (generate_ot_buffer sp sr al g) 0x33A = sp.length
    ∧ ∀ i : ℕ, i < 64 → readU32 (generate_ot_buffer sp sr al g) (0x3A + 12 * i) =
        (if i < sp.length then msToSamples sr (sp.getD i 0) else 0) % 4294967296 := by
  constructor
  · rw [gen_read_count, Nat.mod_eq_of_lt h]
  · intro i hi
    exact gen_read_start sp sr al g hi

theorem c3_witness :
    [0, 1000].length < 4294967296 ∧
      (readU32 (generate_ot_buffer [0, 1000] 44100 88200 12) 0x33A = [0, 1000].length
      ∧ ∀ i : ℕ, i < 64 →
          readU32 (generate_ot_buffer [0, 1000] 44100 88200 12) (0x3A + 12 * i) =
            (if i < [0, 1000].length then msToSamples 44100 ([0, 1000].getD i 0) else 0) %
              4294967296) :=
  ⟨by decide, c3_count_unclamped_amended [0, 1000] 44100 88200 12 (by decide)⟩

set_option maxRecDepth 100000 in
/-- C3 (counterexample): with 65 slice points the count field holds 65, not
`min(64, 65) = 64`. -/
theorem c3_counterexample :
    readU32 (generate_ot_buffer (List.replicate 65 0) 44100 0 12) 0x33A = 65
    ∧ (65 : ℕ) ≠ min 64 (List.replicate 65 (0 : ℕ)).length := by
  constructor
  · decide
  · decide

/-!  ### Claim theorems: the chain planner  -/

lemma run_chain_mode_abort1 (out : String) (slices maxLen : Option ℕ) (np : Bool)
    (g : ℚ) : run_chain_mode [] out slices maxLen np g =
      .aborted "No audio files found to process." := rfl

lemma run_chain_mode_abort2 (files : List (Option Clip)) (out : String)
    (slices maxLen : Option ℕ) (np : Bool) (g : ℚ) (hf : files ≠ [])
    (hp : processedOf files slices = []) :
    run_chain_mode files out slices maxLen np g =
      .aborted "No valid audio files were processed." := by
  unfold run_chain_mode
  rw [isEmpty_false_of_ne_nil hf]
  simp only [Bool.false_eq_true, if_false]
  rw [hp]
  rfl

/-- C6 (amended): with no input files found, or no clips surviving
preparation, the run aborts before writing any audio or metadata output and
prints a final message naming the cause; however `run_chain_mode` merely
returns and `main` never calls `sys.exit`, so the process terminates with exit
status 0, not a non-zero status. -/
theorem c6_empty_input_amended (files : List (Option Clip)) (out : String)
    (slices maxLen : Option ℕ) (np : Bool) (g : ℚ)
    (h : files = [] ∨ processedOf files slices = []) :
    (run_chain_mode files out slices maxLen np g =
        ChainOutcome.aborted "No audio files found to process."
      ∨ run_chain_mode files out slices maxLen np g =
        ChainOutcome.aborted "No valid audio files were processed.")
    ∧ (run_chain_mode files out slices maxLen np g).exitStatus = 0 := by
  refine ⟨?_, rfl⟩
  by_cases hf : files = []
  · left
    rw [hf, run_chain_mode_abort1]
  · right
    have h2 : processedOf files slices = [] := by
      rcases h with h | h
      · exact absurd h hf
      · exact h
    exact run_chain_mode_abort2 files out slices maxLen np g hf h2

/-- C6 (counterexample): on empty input the run aborts with the message, but
the exit status is 0, contradicting the claimed non-zero exit status. -/
theorem c6_counterexample :
    run_chain_mode [] "out.wav" none none false 12 =
      ChainOutcome.aborted "No audio files found to process."
    ∧ (run_chain_mode [] "out.wav" none none false 12).exitStatus = 0 :=
  ⟨rfl, rfl⟩

theorem c6_witness :
    (([none] : List (Option Clip)) = [] ∨ processedOf [none] none = []) ∧
      ((run_chain_mode [none] "out.wav" none none false 12 =
          ChainOutcome.aborted "No audio files found to process."
        ∨ run_chain_mode [none] "out.wav" none none false 12 =
          ChainOutcome.aborted "No valid audio files were processed.")
      ∧ (run_chain_mode [none] "out.wav" none none false 12).exitStatus = 0) :=
  ⟨Or.inr rfl, c6_empty_input_amended [none] "out.wav" none none false 12 (Or.inr rfl)⟩

/-- C9 (amended): the metadata path is the audio output path with every
occurrence of the substring `.wav` replaced by `.ot` (the replacement being
applied both in `run_chain_mode` and again in `generate_ot_file`); it is
distinct from the audio path exactly when `.wav` occurs in the audio path —
for any other audio path the metadata is written to the same path as the
audio. -/
theorem c9_ot_path_amended (files : List (Option Clip)) (out : String)
    (slices maxLen : Option ℕ) (np : Bool) (g : ℚ) (hf : files ≠ [])
    (hp : processedOf files slices ≠ []) :
    (run_chain_mode files out slices maxLen np g).otPathOut = otPathFn (otPathFn out)
    ∧ (run_chain_mode files out slices maxLen np g).audioPathOut = out
    ∧ ((run_chain_mode files out slices maxLen np g).otPathOut ≠
        (run_chain_mode files out slices maxLen np g).audioPathOut ↔
        hasWav out.data = true) := by
  rw [run_chain_mode_done files out slices maxLen np g hf hp]
  refine ⟨rfl, rfl, ?_⟩
  show otPathFn (otPathFn out) ≠ out ↔ hasWav out.data = true
  exact otPathFn_twice_ne_iff out

theorem c9_witness :
    (run_chain_mode [some [1]] "chain.wav" none none false 12).otPathOut =
        otPathFn (otPathFn "chain.wav")
    ∧ (run_chain_mode [some [1]] "chain.wav" none none false 12).audioPathOut =
        "chain.wav"
    ∧ ((run_chain_mode [some [1]] "chain.wav" none none false 12).otPathOut ≠
        (run_chain_mode [some [1]] "chain.wav" none none false 12).audioPathOut ↔
        hasWav "chain.wav".data = true) :=
  c9_ot_path_amended [some [1]] "chain.wav" none none false 12 (by decide) (by decide)

/-- C9 (counterexample): for the audio path `out.aif` — which contains no
`.wav` — the replacement changes nothing and the metadata buffer is written to
the very same path as the audio file, so the two paths are not distinct. -/
theorem c9_counterexample :
    (run_chain_mode [some [1]] "out.aif" none none false 12).otPathOut =
      (run_chain_mode [some [1]] "out.aif" none none false 12).audioPathOut
    ∧ (run_chain_mode [some [1]] "out.aif" none none false 12).otPathOut =
      "out.aif" := by
  constructor
  · decide
  · decide

/-- C7: padding law.  With padding enabled, a truthy slice target `t ≤ 64`
(the CLI only offers 2..64) and fewer processed clips than `t`, the run
completes with exactly `t` slice entries; the trailing entries are entirely
silent clips of the uniform slice length, and every slice-table entry carries
loop point `-1` (`0xFFFFFFFF` as unsigned bytes). -/
theorem c7_padding_law (files : List (Option Clip)) (out : String)
    (maxLen : Option ℕ) (g : ℚ) (t : ℕ) (ht0 : 0 < t) (ht64 : t ≤ 64)
    (hp : processedOf files (some t) ≠ [])
    (hlt : (processedOf files (some t)).length < t) :
    (run_chain_mode files out (some t) maxLen false g).paddedOut.length = t
    ∧ readU32 ((run_chain_mode files out (some t) maxLen false g).bufOut) 0x33A = t
    ∧ (∀ j, (processedOf files (some t)).length ≤ j → j < t →
        (run_chain_mode files out (some t) maxLen false g).paddedOut.getD j [] =
          List.replicate (sliceLenOf (processedOf files (some t)) maxLen) (0 : ℤ))
    ∧ (∀ j, j < 64 →
        readU32 ((run_chain_mode files out (some t) maxLen false g).bufOut)
          (0x3A + 12 * j + 8) = 4294967295) := by
  have hf : files ≠ [] := by
    intro he
    rw [he, processedOf_nil] at hp
    exact hp rfl
  rw [run_chain_mode_done files out (some t) maxLen false g hf hp]
  simp only [ChainOutcome.paddedOut, ChainOutcome.bufOut]
  have hpad := paddedOf_append (processedOf files (some t)) maxLen ht0 hlt ht64
  have hlen : (paddedOf (processedOf files (some t)) (some t) maxLen false).length = t := by
    rw [hpad]
    simp only [List.length_append, List.length_map, List.length_replicate]
    omega
  refine ⟨hlen, ?_, ?_, ?_⟩
  · rw [gen_read_count, slicePointsOf_length, hlen, Nat.mod_eq_of_lt (by omega)]
  · intro j hj1 hj2
    rw [hpad]
    rw [show j = (List.map (padClip (sliceLenOf (processedOf files (some t)) maxLen))
        (processedOf files (some t))).length + (j - (processedOf files (some t)).length)
      from by simp only [List.length_map]; omega]
    rw [getD_append_right, getD_replicate _ _ _ _ (by omega)]
  · intro j hj
    exact gen_read_loop _ _ _ _ hj

theorem c7_witness :
    (run_chain_mode [some [1]] "a.wav" (some 2) none false 12).paddedOut.length = 2
    ∧ readU32 ((run_chain_mode [some [1]] "a.wav" (some 2) none false 12).bufOut)
        0x33A = 2
    ∧ (∀ j, (processedOf [some [1]] (some 2)).length ≤ j → j < 2 →
        (run_chain_mode [some [1]] "a.wav" (some 2) none false 12).paddedOut.getD j [] =
          List.replicate (sliceLenOf (processedOf [some [1]] (some 2)) none) (0 : ℤ))
    ∧ (∀ j, j < 64 →
        readU32 ((run_chain_mode [some [1]] "a.wav" (some 2) none false 12).bufOut)
          (0x3A + 12 * j + 8) = 4294967295) :=
  c7_padding_law [some [1]] "a.wav" none 12 2 (by decide) (by decide) (by decide)
    (by decide)

/-- The slice target values the CLI accepts
(`choices=[2, 4, 8, 12, 16, 24, 32, 48, 64]`), or no target at all. -/
def slicesValid (slices : Option ℕ) : Prop :=
  slices = none ∨ ∃ t, slices = some t ∧ t ∈ [2, 4, 8, 12, 16, 24, 32, 48, 64]

lemma paddedOf_noPadding (processed : List Clip) (slices maxLen : Option ℕ) :
    paddedOf processed slices maxLen true = processed := rfl

/-- C10: for every `run_chain_mode` invocation whose slice target comes from
the CLI's fixed choice set (or is absent), the assembled slice list never
exceeds 64 entries, the slice-count field written by `generate_ot_file` equals
that length (hence is at most 64), and every slice has its start offset
encoded in the table — no entry is dropped. -/
theorem c10_at_most_64_slices (files : List (Option Clip)) (slices maxLen : Option ℕ)
    (np : Bool) (g : ℚ) (total : ℕ) (hv : slicesValid slices) :
    (paddedOf (processedOf files slices) slices maxLen np).length ≤ 64
    ∧ readU32 (generate_ot_buffer
        (slicePointsOf (paddedOf (processedOf files slices) slices maxLen np))
        44100 total g) 0x33A =
      (paddedOf (processedOf files slices) slices maxLen np).length
    ∧ ∀ i, i < (paddedOf (processedOf files slices) slices maxLen np).length →
        readU32 (generate_ot_buffer
          (slicePointsOf (paddedOf (processedOf files slices) slices maxLen np))
          44100 total g) (0x3A + 12 * i) =
        msToSamples 44100
          ((slicePointsOf (paddedOf (processedOf files slices) slices maxLen np)).getD
            i 0) % 4294967296 := by
  have hlen : (paddedOf (processedOf files slices) slices maxLen np).length ≤ 64 := by
    rcases hv with hv | ⟨t, hv, hmem⟩
    · subst hv
      cases np with
      | true =>
          rw [paddedOf_noPadding]
          exact processedOf_none_length_le files
      | false =>
          rw [paddedOf_no_append _ _ _ (fun t he => Option.noConfusion he),
            List.length_map]
          exact processedOf_none_length_le files
    · subst hv
      have ht : 0 < t ∧ t ≤ 64 := by
        simp only [List.mem_cons, List.not_mem_nil, or_false] at hmem
        rcases hmem with h | h | h | h | h | h | h | h | h <;> omega
      cases np with
      | true =>
          rw [paddedOf_noPadding]
          exact le_trans (processedOf_some_length_le files ht.1) ht.2
      | false =>
          by_cases hc : 0 < t ∧ (processedOf files (some t)).length < t
          · rw [paddedOf_append _ _ hc.1 hc.2 ht.2]
            simp only [List.length_append, List.length_map, List.length_replicate]
            omega
          · rw [paddedOf_no_append _ _ _
                (fun u he => by rw [Option.some_inj] at he; rw [← he]; exact hc),
              List.length_map]
            exact le_trans (processedOf_some_length_le files ht.1) ht.2
  refine ⟨hlen, ?_, ?_⟩
  · rw [gen_read_count, slicePointsOf_length,
      Nat.mod_eq_of_lt (by omega)]
  · intro i hi
    rw [gen_read_start _ _ _ _ (by omega), if_pos (by rw [slicePointsOf_length]; omega)]

theorem c10_witness :
    slicesValid (some 2) ∧
      ((paddedOf (processedOf [some [5]] (some 2)) (some 2) none false).length ≤ 64
      ∧ readU32 (generate_ot_buffer
          (slicePointsOf (paddedOf (processedOf [some [5]] (some 2)) (some 2) none false))
          44100 88 12) 0x33A =
        (paddedOf (processedOf [some [5]] (some 2)) (some 2) none false).length
      ∧ ∀ i, i < (paddedOf (processedOf [some [5]] (some 2)) (some 2) none false).length →
          readU32 (generate_ot_buffer
            (slicePointsOf (paddedOf (processedOf [some [5]] (some 2)) (some 2) none false))
            44100 88 12) (0x3A + 12 * i) =
          msToSamples 44100
            ((slicePointsOf (paddedOf (processedOf [some [5]] (some 2)) (some 2) none
              false)).getD i 0) % 4294967296) :=
  ⟨Or.inr ⟨2, rfl, by decide⟩,
    c10_at_most_64_slices [some [5]] (some 2) none false 12 88
      (Or.inr ⟨2, rfl, by decide⟩)⟩

end Octatool

